import Mathlib

/-!
Verification of the BeReal Time sensor core (src/sensor.py) against its
specification.

Embedding conventions:
* A JSON payload is modelled as an association list of string keys and
  `JVal` values, mirroring the Python dict that `resp.json()` yields and
  that `_parse_bereal_data` copies and mutates in place.  JSON numbers are
  modelled as integers (the API fields of interest are epoch milliseconds);
  aggregate values (arrays, objects) are opaque because the sensor code
  never inspects their contents.
* Date parsing is delegated by the source to the Python standard library
  (datetime.datetime.fromisoformat / .timestamp); these collaborators are
  passed in as explicit function parameters (pIso, pLoc) returning
  Option Int (epoch milliseconds), with none modelling a ValueError.
* The ambient clock and timezone reads (datetime.datetime.now, astimezone,
  .date) are gathered in an explicit TimeCtx value.
* Python exceptions that the source does not catch (AttributeError from
  calling .replace on a non-string, TypeError from arithmetic or item
  access on unsupported types) are modelled by Except.error PyCrash; the
  caught ValueError of the date-parse try block is handled inside the
  normalizer, as in the source.
-/

/-- A JSON value as the Python json module materialises it.  Numbers are
modelled as integers; list and dict values are opaque markers because the
sensor logic never reads inside them (they are only stringified). -/
inductive JVal where
  | str (s : String)
  | num (n : Int)
  | bool (b : Bool)
  | null
  | arr
  | obj
  deriving DecidableEq

/-- A Python dict with string keys, as an association list (keys unique in
any dict produced by json decoding; lookup takes the first match). -/
abbrev JDict := List (String × JVal)

/-- A top-level decoded JSON document.  Every non-dict top-level value makes
the update cycle raise: int/float/bool/None lack .copy (AttributeError,
line 116), and str/list payloads fail at string-keyed item access or item
assignment (TypeError, lines 120/127/134/143).  So non-dict documents are
collapsed into one crashing marker. -/
inductive JTop where
  | jobj (d : JDict)
  | jnonObj
  deriving DecidableEq

/-- Python exceptions that escape the try blocks of src/sensor.py. -/
inductive PyCrash where
  | attributeError
  | typeError
  deriving DecidableEq

/-- Dict lookup: d[k] as an Option, also used for the `k in d` test
(present means some, even when the stored value is null/None). -/
def dlookup (d : JDict) (k : String) : Option JVal :=
  match d with
  | [] => none
  | (k1, v) :: rest => if k1 = k then some v else dlookup rest k

/-- Dict update d[k] = v: replaces the first binding of k, else appends. -/
def dset (d : JDict) (k : String) (v : JVal) : JDict :=
  match d with
  | [] => [(k, v)]
  | (k1, v1) :: rest => if k1 = k then (k, v) :: rest else (k1, v1) :: dset rest k v

/-- Python d.get(k): returns None both when the key is absent and when the
stored value is None (JSON null), which the source then treats as absent
via the `is not None` tests on lines 150. -/
def pyGet (d : JDict) (k : String) : Option JVal :=
  match dlookup d k with
  | some JVal.null => none
  | some v => some v
  | none => none

/-- Values accepted by the numeric operations of lines 154 and 163-167
(division by 1000 and integer comparisons): ints and bools (Python bools
are ints); everything else raises TypeError there. -/
def jNumeric : JVal → Option Int
  | JVal.num n => some n
  | JVal.bool b => some (if b then 1 else 0)
  | _ => none

/-- Python str(v) as used by the f-string on line 134.  Aggregates render
as their opaque markers (their contents are never consulted). -/
def toPyStr : JVal → String
  | JVal.str s => s
  | JVal.num n => toString n
  | JVal.bool b => if b then "True" else "False"
  | JVal.null => "None"
  | JVal.arr => "[]"
  | JVal.obj => "\x7b\x7d"

/-- Python s.replace("Z", "+00:00") from lines 122 and 129: every
occurrence of the single character Z becomes +00:00. -/
def zrepl (s : String) : String :=
  String.mk (s.data.foldr
    (fun c acc =>
      if c = 'Z' then '+' :: '0' :: '0' :: ':' :: '0' :: '0' :: acc
      else c :: acc) [])

/-- The message stored by line 138 when fromisoformat raises ValueError on
string s (modelling the standard-library message text). -/
def perrMsg (s : String) : String :=
  "Date parse error: Invalid isoformat string: " ++ s

/-- The ambient clock and timezone reads of one update cycle:
currentUtcMillis samples lines 141-142, nowLocalDate samples the local
calendar date of lines 151-152 (as an abstract day index),
localDateOfMillis is the composite of lines 153-157 mapping an epoch-ms
instant to its local calendar date, and nowLocalGeSixAm is the
comparison now_local >= six_am of lines 159 and 171. -/
structure TimeCtx where
  currentUtcMillis : Int
  nowLocalDate : Int
  localDateOfMillis : Int → Int
  nowLocalGeSixAm : Bool

/-- Lines 163-168: the start/end comparison chain, with Python evaluation
order and short-circuiting.  start <= current_utc <= end evaluates
start <= current_utc first; a non-numeric operand raises TypeError at the
comparison that touches it.  The chain is exhaustive on integers: when the
first two guards fail, current_utc > end necessarily holds. -/
def windowInstance (cur : Int) (sv ev : JVal) : Except PyCrash (Option String) :=
  match jNumeric sv with
  | none => Except.error PyCrash.typeError
  | some start =>
    if start ≤ cur then
      match jNumeric ev with
      | none => Except.error PyCrash.typeError
      | some endv =>
        if cur ≤ endv then Except.ok (some "now")
        else Except.ok (some "past")
    else Except.ok (some "waiting")

/-- Lines 150-172 given that start, end and localDateTime are all present:
the local-day rollover test (line 161) first, then the window comparisons,
then the post-hoc 06:00 forcing of lines 170-172.  sv and ev are the dict
values of startDate and endDate (integers in every run reachable from the
full pipeline); ltMillis is the numeric localDateTime value. -/
def resolveInstance (ctx : TimeCtx) (sv ev : JVal) (ltMillis : Int) :
    Except PyCrash (Option String) :=
  match
    (if ctx.nowLocalDate > ctx.localDateOfMillis ltMillis then
      Except.ok (some "waiting")
    else windowInstance ctx.currentUtcMillis sv ev : Except PyCrash (Option String))
  with
  | Except.error c => Except.error c
  | Except.ok inst =>
    if ctx.nowLocalGeSixAm ∧ ctx.nowLocalDate > ctx.localDateOfMillis ltMillis then
      Except.ok (some "waiting")
    else Except.ok inst

/-- Modelled from the spec: section 4.2 decision rules 1-4 alone, without
the 06:00 cutoff restatement, on a record whose three timestamps are
present as integers.  Written from the words of the specification for the
refinement comparison of claim C9. -/
def resolveRulesOneToFour (ctx : TimeCtx)
    (startMillis endMillis localAnchorMillis : Int) : Option String :=
  if ctx.nowLocalDate > ctx.localDateOfMillis localAnchorMillis then some "waiting"
  else if startMillis ≤ ctx.currentUtcMillis ∧ ctx.currentUtcMillis ≤ endMillis then some "now"
  else if ctx.currentUtcMillis < startMillis then some "waiting"
  else if ctx.currentUtcMillis > endMillis then some "past"
  else none

/-- Outcome of one optional-date normalization step of the try block. -/
inductive NormStep where
  | ok (d : JDict)
  | perr (msg : String)
  | crash (c : PyCrash)
  deriving DecidableEq

/-- Lines 119-125 (and identically 126-132 for endDate): when the key is
present, call .replace on the stored value (AttributeError unless it is a
string), parse with fromisoformat (ValueError on failure, caught by the
surrounding except as a perr outcome), and overwrite the key with the
epoch-millisecond integer. -/
def normDate (pIso : String → Option Int) (d : JDict) (key : String) : NormStep :=
  match dlookup d key with
  | none => NormStep.ok d
  | some (JVal.str s) =>
    match pIso (zrepl s) with
    | some ms => NormStep.ok (dset d key (JVal.num ms))
    | none => NormStep.perr (perrMsg (zrepl s))
  | some _ => NormStep.crash PyCrash.attributeError

/-- Lines 133-136: when both localDate and localTime are present, build the
f-string localDate T localTime :00, parse it as a naive local datetime and
store its epoch milliseconds under localDateTime.  The f-string accepts any
value, so this step never crashes; a failed parse is a caught ValueError. -/
def normLocal (pLoc : String → Option Int) (d : JDict) : NormStep :=
  match dlookup d "localDate", dlookup d "localTime" with
  | some v1, some v2 =>
    match pLoc (toPyStr v1 ++ "T" ++ toPyStr v2 ++ ":00") with
    | some ms => NormStep.ok (dset d "localDateTime" (JVal.num ms))
    | none => NormStep.perr (perrMsg (toPyStr v1 ++ "T" ++ toPyStr v2 ++ ":00"))
  | _, _ => NormStep.ok d

/-- Python None (absent or null) rendered back into a stored dict value. -/
def optStrJ : Option String → JVal
  | some s => JVal.str s
  | none => JVal.null

/-- Lines 141-175: stamp current_time_utc, read back startDate, endDate and
localDateTime with .get (None when absent or null), and resolve the
instance when all three are present; otherwise the instance is None.  A
non-numeric localDateTime value raises TypeError at
fromtimestamp(local_timestamp / 1000) on line 154, outside any try. -/
def parsePostTry (ctx : TimeCtx) (d : JDict) : Except PyCrash JDict :=
  let d3 := dset d "current_time_utc" (JVal.num ctx.currentUtcMillis)
  match pyGet d3 "startDate", pyGet d3 "endDate", pyGet d3 "localDateTime" with
  | some sv, some ev, some lv =>
    match jNumeric lv with
    | none => Except.error PyCrash.typeError
    | some lt =>
      match resolveInstance ctx sv ev lt with
      | Except.error c => Except.error c
      | Except.ok inst => Except.ok (dset d3 "instance" (optStrJ inst))
  | _, _, _ => Except.ok (dset d3 "instance" JVal.null)

/-- BeRealSensor._parse_bereal_data, lines 114-175.  The try block runs the
three normalization steps in order; a caught ValueError attaches the error
message to the dict as it stands at that moment and returns it at once
(lines 137-139); an AttributeError escapes the function. -/
def parse_bereal_data (pIso pLoc : String → Option Int) (ctx : TimeCtx)
    (data : JDict) : Except PyCrash JDict :=
  match normDate pIso data "startDate" with
  | NormStep.crash c => Except.error c
  | NormStep.perr msg => Except.ok (dset data "error" (JVal.str msg))
  | NormStep.ok d1 =>
    match normDate pIso d1 "endDate" with
    | NormStep.crash c => Except.error c
    | NormStep.perr msg => Except.ok (dset d1 "error" (JVal.str msg))
    | NormStep.ok d2 =>
      match normLocal pLoc d2 with
      | NormStep.crash c => Except.error c
      | NormStep.perr msg => Except.ok (dset d2 "error" (JVal.str msg))
      | NormStep.ok d3 => parsePostTry ctx d3

/-- SHORT_INTERVAL of line 21, in seconds. -/
def SHORT_INTERVAL : Int := 5

/-- LONG_INTERVAL of line 22, in seconds. -/
def LONG_INTERVAL : Int := 7200

/-- Lines 84-92: the polling-interval decision on the instance value that
parsed.get returned (Python equality of a non-string with a string literal
is plain False, so any unrecognized or absent value takes the fallback). -/
def nextIntervalSecs (inst : Option JVal) : Int :=
  if inst = some (JVal.str "now") then SHORT_INTERVAL
  else if inst = some (JVal.str "waiting") then SHORT_INTERVAL
  else if inst = some (JVal.str "past") then LONG_INTERVAL
  else SHORT_INTERVAL

/-- A minimal json.dumps rendering of a stored value (line 97); string
escaping is omitted and aggregates render as their opaque markers, since no
claim depends on the exact text beyond it being the raw-payload echo. -/
def jvalDump : JVal → String
  | JVal.str s => "\x22" ++ s ++ "\x22"
  | JVal.num n => toString n
  | JVal.bool b => if b then "true" else "false"
  | JVal.null => "null"
  | JVal.arr => "[]"
  | JVal.obj => "\x7b\x7d"

/-- json.dumps over the whole document. -/
def jsonDumps : JTop → String
  | JTop.jobj d =>
    "\x7b" ++ String.intercalate ", "
      (d.map (fun kv => "\x22" ++ kv.1 ++ "\x22: " ++ jvalDump kv.2)) ++ "\x7d"
  | JTop.jnonObj => ""

/-- What one fetch produced before the sensor code runs: a transport
failure (aiohttp.ClientError or TimeoutError), a JSON decode failure, or a
decoded document.  The message string is the str(err) text. -/
inductive FetchResult where
  | transportError (msg : String)
  | decodeError (msg : String)
  | payload (data : JTop)
  deriving DecidableEq

/-- The externally visible result of one completed update cycle: the
reported native value, the reported attributes (lines 95-100 and 105-110),
and the delay handed to _schedule_next_update on line 112. -/
structure CycleOutcome where
  nativeValue : JVal
  apiParsed : JDict
  apiRaw : String
  currentTimeUtc : JVal
  scanIntervalSecs : Int
  nextDelaySecs : Int
  deriving DecidableEq

/-- BeRealSensor.async_update, lines 73-112, up to (but not including) the
rearming call of line 112.  The except clause of line 102 catches only the
transport and JSON decode failures; a PyCrash raised inside
_parse_bereal_data escapes the whole coroutine, in which case nothing is
reported and line 112 never runs. -/
def async_update (pIso pLoc : String → Option Int) (ctx : TimeCtx)
    (fetch : FetchResult) : Except PyCrash CycleOutcome :=
  match fetch with
  | FetchResult.transportError msg =>
    Except.ok
      { nativeValue := JVal.str "error", apiParsed := []
        apiRaw := "Error: " ++ msg, currentTimeUtc := JVal.null
        scanIntervalSecs := SHORT_INTERVAL, nextDelaySecs := SHORT_INTERVAL }
  | FetchResult.decodeError msg =>
    Except.ok
      { nativeValue := JVal.str "error", apiParsed := []
        apiRaw := "Error: " ++ msg, currentTimeUtc := JVal.null
        scanIntervalSecs := SHORT_INTERVAL, nextDelaySecs := SHORT_INTERVAL }
  | FetchResult.payload JTop.jnonObj => Except.error PyCrash.attributeError
  | FetchResult.payload (JTop.jobj d) =>
    match parse_bereal_data pIso pLoc ctx d with
    | Except.error c => Except.error c
    | Except.ok parsed =>
      let inst := pyGet parsed "instance"
      let nextI := nextIntervalSecs inst
      Except.ok
        { nativeValue := (inst.getD JVal.null), apiParsed := parsed
          apiRaw := jsonDumps (JTop.jobj d)
          currentTimeUtc := ((pyGet parsed "current_time_utc").getD JVal.null)
          scanIntervalSecs := nextI, nextDelaySecs := nextI }

/-- The scheduler state of one sensor instance together with the pool of
armed, not-yet-fired, not-cancelled timers it created: _unsub_timer and
_current_interval from lines 47-48, plus a fresh-id counter so that every
async_call_later handle is distinct. -/
structure SchedState where
  nextId : Nat
  live : List Nat
  unsub : Option Nat
  currentIntervalSecs : Int
  deriving DecidableEq

/-- The state right after __init__ (lines 47-48): no timer armed. -/
def initSched : SchedState :=
  { nextId := 0, live := [], unsub := none, currentIntervalSecs := SHORT_INTERVAL }

/-- BeRealSensor._schedule_next_update, lines 60-71: cancel the previously
armed timer when one is held, record the interval, arm a fresh timer and
keep its cancel handle. -/
def schedule_next_update (s : SchedState) (intervalSecs : Int) : SchedState :=
  let live1 :=
    match s.unsub with
    | some t => s.live.filter (fun x => x ≠ t)
    | none => s.live
  { nextId := s.nextId + 1, live := live1 ++ [s.nextId]
    unsub := some s.nextId, currentIntervalSecs := intervalSecs }

/-- BeRealSensor.async_will_remove_from_hass, lines 54-58: cancel the
outstanding timer, if any, and drop the handle. -/
def async_will_remove_from_hass (s : SchedState) : SchedState :=
  match s.unsub with
  | some t =>
    { s with live := s.live.filter (fun x => x ≠ t), unsub := none }
  | none => s

/-- A timer firing (the async_call_later callback of lines 67-69): the
one-shot timer leaves the armed pool; the update task it spawns is modelled
by the separate cycle steps. -/
def fireTimer (s : SchedState) (t : Nat) : SchedState :=
  { s with live := s.live.filter (fun x => x ≠ t) }

/-- The events that touch the scheduler state of one sensor instance. -/
inductive SchedStep : SchedState → SchedState → Prop
  | sched (s : SchedState) (i : Int) : SchedStep s (schedule_next_update s i)
  | fire (s : SchedState) (t : Nat) (h : t ∈ s.live) : SchedStep s (fireTimer s t)
  | remove (s : SchedState) : SchedStep s (async_will_remove_from_hass s)

/-- Scheduler states reachable over the lifetime of one sensor instance. -/
inductive SchedReach : SchedState → Prop
  | start : SchedReach initSched
  | step {s s1 : SchedState} : SchedReach s → SchedStep s s1 → SchedReach s1

/-- One full cycle as driven by lines 73-112: run async_update and, when it
completes, rearm via _schedule_next_update with the chosen delay.  When a
PyCrash escapes, no outcome is reported and the timer is not rearmed. -/
def updateCycle (pIso pLoc : String → Option Int) (ctx : TimeCtx)
    (fetch : FetchResult) (s : SchedState) :
    Except PyCrash (CycleOutcome × SchedState) :=
  match async_update pIso pLoc ctx fetch with
  | Except.error c => Except.error c
  | Except.ok out => Except.ok (out, schedule_next_update s out.nextDelaySecs)

/-! Concrete fixtures used by witnesses and counterexamples. -/

/-- A date parser that accepts every string as epoch millisecond 0. -/
def pIsoAll : String → Option Int := fun _ => some 0

/-- A date parser that rejects every string. -/
def pIsoNone : String → Option Int := fun _ => none

/-- A time context with no local-day rollover (anchor date equals today). -/
def ctxFlat : TimeCtx :=
  { currentUtcMillis := 5, nowLocalDate := 0
    localDateOfMillis := fun _ => 0, nowLocalGeSixAm := false }

/-- A time context whose local calendar day has rolled past the anchor. -/
def ctxRoll : TimeCtx :=
  { currentUtcMillis := 0, nowLocalDate := 1
    localDateOfMillis := fun _ => 0, nowLocalGeSixAm := true }

/-! Dictionary lemmas. -/

theorem dlookup_dset_self (d : JDict) (k : String) (v : JVal) :
    dlookup (dset d k v) k = some v := by
  induction d with
  | nil => simp [dset, dlookup]
  | cons p rest ih =>
    obtain ⟨k1, v1⟩ := p
    by_cases h : k1 = k <;> simp [dset, dlookup, h, ih]

theorem dlookup_dset_ne (d : JDict) (k k1 : String) (v : JVal)
    (h : k1 ≠ k) : dlookup (dset d k v) k1 = dlookup d k1 := by
  have hne : k ≠ k1 := fun hh => h hh.symm
  induction d with
  | nil =>
    simp only [dset, dlookup]
    rw [if_neg hne]
  | cons p rest ih =>
    obtain ⟨k2, v2⟩ := p
    simp only [dset]
    by_cases h2 : k2 = k
    · subst h2
      rw [if_pos rfl]
      simp only [dlookup]
      rw [if_neg hne, if_neg hne]
    · rw [if_neg h2]
      simp only [dlookup]
      by_cases h3 : k2 = k1
      · rw [if_pos h3, if_pos h3]
      · rw [if_neg h3, if_neg h3]
        exact ih

theorem pyGet_dset_ne (d : JDict) (k k1 : String) (v : JVal)
    (h : k1 ≠ k) : pyGet (dset d k v) k1 = pyGet d k1 := by
  unfold pyGet
  rw [dlookup_dset_ne d k k1 v h]

theorem pyGet_congr (d1 d2 : JDict) (k : String)
    (h : dlookup d1 k = dlookup d2 k) : pyGet d1 k = pyGet d2 k := by
  unfold pyGet
  rw [h]

/-! Characterizations of the normalization steps. -/

theorem normDate_ok_cases (pIso : String → Option Int) (d : JDict)
    (key : String) (d1 : JDict) (h : normDate pIso d key = NormStep.ok d1) :
    (dlookup d key = none ∧ d1 = d) ∨
      ∃ s n, dlookup d key = some (JVal.str s) ∧ pIso (zrepl s) = some n ∧
        d1 = dset d key (JVal.num n) := by
  unfold normDate at h
  split at h
  · exact Or.inl ⟨by assumption, by cases h; rfl⟩
  · rename_i s hs
    split at h
    · rename_i n hn
      exact Or.inr ⟨s, n, hs, hn, by cases h; rfl⟩
    · cases h
  · cases h

theorem normDate_ok_pres (pIso : String → Option Int) (d : JDict)
    (key : String) (d1 : JDict) (k : String) (hk : k ≠ key)
    (h : normDate pIso d key = NormStep.ok d1) :
    dlookup d1 k = dlookup d k := by
  rcases normDate_ok_cases pIso d key d1 h with ⟨_, rfl⟩ | ⟨s, n, _, _, rfl⟩
  · rfl
  · exact dlookup_dset_ne d key k _ hk

theorem normLocal_ok_cases (pLoc : String → Option Int) (d : JDict)
    (d1 : JDict) (h : normLocal pLoc d = NormStep.ok d1) :
    d1 = d ∨ ∃ n, d1 = dset d "localDateTime" (JVal.num n) := by
  unfold normLocal at h
  split at h
  · split at h
    · rename_i n hn
      exact Or.inr ⟨n, by cases h; rfl⟩
    · cases h
  · exact Or.inl (by cases h; rfl)

theorem normLocal_ok_pres (pLoc : String → Option Int) (d d1 : JDict)
    (k : String) (hk : k ≠ "localDateTime")
    (h : normLocal pLoc d = NormStep.ok d1) :
    dlookup d1 k = dlookup d k := by
  rcases normLocal_ok_cases pLoc d d1 h with rfl | ⟨n, rfl⟩
  · rfl
  · exact dlookup_dset_ne d _ k _ hk

theorem normLocal_absent (pLoc : String → Option Int) (d : JDict)
    (h : dlookup d "localDate" = none ∨ dlookup d "localTime" = none) :
    normLocal pLoc d = NormStep.ok d := by
  unfold normLocal
  rcases h with h | h
  · rw [h]
  · rw [h]
    cases dlookup d "localDate" <;> rfl

theorem normLocal_no_crash (pLoc : String → Option Int) (d : JDict)
    (c : PyCrash) : normLocal pLoc d ≠ NormStep.crash c := by
  unfold normLocal
  split
  · split <;> simp
  · simp

/-- Equality of Except values is decidable when both components are. -/
instance {e a : Type} [DecidableEq e] [DecidableEq a] :
    DecidableEq (Except e a) := fun x y =>
  match x, y with
  | Except.ok u, Except.ok v =>
    if h : u = v then isTrue (by rw [h])
    else isFalse (by intro hh; cases hh; exact h rfl)
  | Except.ok _, Except.error _ => isFalse (by intro hh; cases hh)
  | Except.error _, Except.ok _ => isFalse (by intro hh; cases hh)
  | Except.error u, Except.error v =>
    if h : u = v then isTrue (by rw [h])
    else isFalse (by intro hh; cases hh; exact h rfl)

/-! Small-step lemmas for the normalizer. -/

theorem normDate_absent (pIso : String → Option Int) (d : JDict) (key : String)
    (h : dlookup d key = none) : normDate pIso d key = NormStep.ok d := by
  unfold normDate
  rw [h]

theorem normDate_parsed (pIso : String → Option Int) (d : JDict) (key : String)
    (s : String) (n : Int) (hs : dlookup d key = some (JVal.str s))
    (hp : pIso (zrepl s) = some n) :
    normDate pIso d key = NormStep.ok (dset d key (JVal.num n)) := by
  simp [normDate, hs, hp]

theorem normDate_fail (pIso : String → Option Int) (d : JDict) (key : String)
    (s : String) (hs : dlookup d key = some (JVal.str s))
    (hp : pIso (zrepl s) = none) :
    normDate pIso d key = NormStep.perr (perrMsg (zrepl s)) := by
  simp [normDate, hs, hp]

theorem normLocal_parsed (pLoc : String → Option Int) (d : JDict)
    (v1 v2 : JVal) (n : Int) (h1 : dlookup d "localDate" = some v1)
    (h2 : dlookup d "localTime" = some v2)
    (hp : pLoc (toPyStr v1 ++ "T" ++ toPyStr v2 ++ ":00") = some n) :
    normLocal pLoc d = NormStep.ok (dset d "localDateTime" (JVal.num n)) := by
  simp [normLocal, h1, h2, hp]

/-! Resolver lemmas. -/

theorem windowInstance_num_cases (cur s e : Int) :
    (s ≤ cur ∧ cur ≤ e ∧
      windowInstance cur (JVal.num s) (JVal.num e) = Except.ok (some "now")) ∨
    (cur < s ∧
      windowInstance cur (JVal.num s) (JVal.num e) = Except.ok (some "waiting")) ∨
    (s ≤ cur ∧ e < cur ∧
      windowInstance cur (JVal.num s) (JVal.num e) = Except.ok (some "past")) := by
  by_cases h1 : s ≤ cur
  · by_cases h2 : cur ≤ e
    · exact Or.inl ⟨h1, h2, by simp [windowInstance, jNumeric, h1, h2]⟩
    · exact Or.inr (Or.inr ⟨h1, by omega, by simp [windowInstance, jNumeric, h1, h2]⟩)
  · exact Or.inr (Or.inl ⟨by omega, by simp [windowInstance, jNumeric, h1]⟩)

theorem resolveInstance_roll (ctx : TimeCtx) (sv ev : JVal) (ltMillis : Int)
    (h : ctx.nowLocalDate > ctx.localDateOfMillis ltMillis) :
    resolveInstance ctx sv ev ltMillis = Except.ok (some "waiting") := by
  simp [resolveInstance, h]

theorem resolveInstance_no_roll (ctx : TimeCtx) (sv ev : JVal) (ltMillis : Int)
    (h : ¬ ctx.nowLocalDate > ctx.localDateOfMillis ltMillis) :
    resolveInstance ctx sv ev ltMillis =
      windowInstance ctx.currentUtcMillis sv ev := by
  cases hw : windowInstance ctx.currentUtcMillis sv ev with
  | error c => simp [resolveInstance, h, hw]
  | ok inst => simp [resolveInstance, h, hw]

/-! Composition lemmas for the full normalizer. -/

theorem parse_steps (pIso pLoc : String → Option Int) (ctx : TimeCtx)
    (d d1 d2 d3 : JDict)
    (h1 : normDate pIso d "startDate" = NormStep.ok d1)
    (h2 : normDate pIso d1 "endDate" = NormStep.ok d2)
    (h3 : normLocal pLoc d2 = NormStep.ok d3) :
    parse_bereal_data pIso pLoc ctx d = parsePostTry ctx d3 := by
  simp [parse_bereal_data, h1, h2, h3]

theorem parse_perr_start (pIso pLoc : String → Option Int) (ctx : TimeCtx)
    (d : JDict) (msg : String)
    (h1 : normDate pIso d "startDate" = NormStep.perr msg) :
    parse_bereal_data pIso pLoc ctx d =
      Except.ok (dset d "error" (JVal.str msg)) := by
  simp [parse_bereal_data, h1]

theorem parse_perr_end (pIso pLoc : String → Option Int) (ctx : TimeCtx)
    (d d1 : JDict) (msg : String)
    (h1 : normDate pIso d "startDate" = NormStep.ok d1)
    (h2 : normDate pIso d1 "endDate" = NormStep.perr msg) :
    parse_bereal_data pIso pLoc ctx d =
      Except.ok (dset d1 "error" (JVal.str msg)) := by
  simp [parse_bereal_data, h1, h2]

theorem parse_perr_local (pIso pLoc : String → Option Int) (ctx : TimeCtx)
    (d d1 d2 : JDict) (msg : String)
    (h1 : normDate pIso d "startDate" = NormStep.ok d1)
    (h2 : normDate pIso d1 "endDate" = NormStep.ok d2)
    (h3 : normLocal pLoc d2 = NormStep.perr msg) :
    parse_bereal_data pIso pLoc ctx d =
      Except.ok (dset d2 "error" (JVal.str msg)) := by
  simp [parse_bereal_data, h1, h2, h3]

/-! Lemmas about the post-try section. -/

theorem pyGet_ctu_startDate (d : JDict) (n : Int) :
    pyGet (dset d "current_time_utc" (JVal.num n)) "startDate" =
      pyGet d "startDate" :=
  pyGet_dset_ne d "current_time_utc" "startDate" (JVal.num n) (by decide)

theorem pyGet_ctu_endDate (d : JDict) (n : Int) :
    pyGet (dset d "current_time_utc" (JVal.num n)) "endDate" =
      pyGet d "endDate" :=
  pyGet_dset_ne d "current_time_utc" "endDate" (JVal.num n) (by decide)

theorem pyGet_ctu_localDateTime (d : JDict) (n : Int) :
    pyGet (dset d "current_time_utc" (JVal.num n)) "localDateTime" =
      pyGet d "localDateTime" :=
  pyGet_dset_ne d "current_time_utc" "localDateTime" (JVal.num n) (by decide)

theorem parsePostTry_absent (ctx : TimeCtx) (d : JDict)
    (h : pyGet d "startDate" = none ∨ pyGet d "endDate" = none ∨
      pyGet d "localDateTime" = none) :
    parsePostTry ctx d =
      Except.ok (dset (dset d "current_time_utc" (JVal.num ctx.currentUtcMillis))
        "instance" JVal.null) := by
  rcases h with h | h | h
  · simp [parsePostTry, pyGet_ctu_startDate, h]
  · cases hx : pyGet d "startDate" <;>
      simp [parsePostTry, pyGet_ctu_startDate, pyGet_ctu_endDate, hx, h]
  · cases hx : pyGet d "startDate" <;> cases hy : pyGet d "endDate" <;>
      simp [parsePostTry, pyGet_ctu_startDate, pyGet_ctu_endDate,
        pyGet_ctu_localDateTime, hx, hy, h]

theorem parsePostTry_present (ctx : TimeCtx) (d : JDict) (s e l : Int)
    (inst : Option String)
    (hs : pyGet d "startDate" = some (JVal.num s))
    (he : pyGet d "endDate" = some (JVal.num e))
    (hl : pyGet d "localDateTime" = some (JVal.num l))
    (hr : resolveInstance ctx (JVal.num s) (JVal.num e) l = Except.ok inst) :
    parsePostTry ctx d =
      Except.ok (dset (dset d "current_time_utc" (JVal.num ctx.currentUtcMillis))
        "instance" (optStrJ inst)) := by
  simp [parsePostTry, pyGet_ctu_startDate, pyGet_ctu_endDate,
    pyGet_ctu_localDateTime, hs, he, hl, jNumeric, hr]

/-! Scheduler invariant. -/

/-- The timer invariant of one sensor instance: every armed timer is the
one whose cancel handle the sensor holds, at most one timer is armed, and
handles held are always ids the instance already created. -/
def SchedInv (s : SchedState) : Prop :=
  (∀ t ∈ s.live, s.unsub = some t) ∧ s.live.length ≤ 1 ∧
    (∀ t, s.unsub = some t → t < s.nextId)

theorem filter_ne_nil_of_all_eq {l : List Nat} {u : Nat}
    (h : ∀ t ∈ l, t = u) : l.filter (fun x => x ≠ u) = [] := by
  induction l with
  | nil => rfl
  | cons a l ih =>
    have ha : a = u := h a (by simp)
    have hl : ∀ t ∈ l, t = u := fun t ht => h t (by simp [ht])
    rw [List.filter_cons]
    simp [ha]
    exact hl

theorem live_nil_of_unsub_none {live : List Nat}
    (h1 : ∀ t ∈ live, (none : Option Nat) = some t) : live = [] := by
  cases live with
  | nil => rfl
  | cons a l => cases h1 a (by simp)

theorem schedule_next_update_inv (s : SchedState) (i : Int)
    (h : SchedInv s) : SchedInv (schedule_next_update s i) := by
  obtain ⟨nid, live, unsub, ci⟩ := s
  obtain ⟨h1, h2, h3⟩ := h
  cases unsub with
  | none =>
    have hlive : live = [] := live_nil_of_unsub_none h1
    subst hlive
    refine ⟨?_, ?_, ?_⟩ <;> simp [schedule_next_update]
  | some u =>
    have hall : ∀ t ∈ live, t = u := fun t ht => (Option.some.inj (h1 t ht)).symm
    have hfil : live.filter (fun x => x ≠ u) = [] := filter_ne_nil_of_all_eq hall
    refine ⟨?_, ?_, ?_⟩
    · show ∀ t ∈ live.filter (fun x => x ≠ u) ++ [nid], (some nid : Option Nat) = some t
      rw [hfil]
      simp
    · show (live.filter (fun x => x ≠ u) ++ [nid]).length ≤ 1
      rw [hfil]
      simp
    · show ∀ t, (some nid : Option Nat) = some t → t < nid + 1
      intro t ht
      cases Option.some.inj ht
      omega

theorem fireTimer_inv (s : SchedState) (t : Nat)
    (h : SchedInv s) : SchedInv (fireTimer s t) := by
  obtain ⟨h1, h2, h3⟩ := h
  refine ⟨?_, ?_, ?_⟩
  · intro t1 ht1
    simp only [fireTimer, List.mem_filter] at ht1
    exact h1 t1 ht1.1
  · exact le_trans (List.length_filter_le _ _) h2
  · exact h3

theorem remove_inv (s : SchedState)
    (h : SchedInv s) : SchedInv (async_will_remove_from_hass s) := by
  obtain ⟨nid, live, unsub, ci⟩ := s
  obtain ⟨h1, h2, h3⟩ := h
  cases unsub with
  | none => exact ⟨h1, h2, h3⟩
  | some u =>
    have hall : ∀ t ∈ live, t = u := fun t ht => (Option.some.inj (h1 t ht)).symm
    have hfil : live.filter (fun x => x ≠ u) = [] := filter_ne_nil_of_all_eq hall
    refine ⟨?_, ?_, ?_⟩
    · show ∀ t ∈ live.filter (fun x => x ≠ u), (none : Option Nat) = some t
      rw [hfil]
      simp
    · show (live.filter (fun x => x ≠ u)).length ≤ 1
      rw [hfil]
      simp
    · exact fun t ht => Option.noConfusion ht

theorem schedReach_inv {s : SchedState} (h : SchedReach s) : SchedInv s := by
  induction h with
  | start => refine ⟨?_, ?_, ?_⟩ <;> simp [initSched]
  | step hr hstep ih =>
    cases hstep with
    | sched i => exact schedule_next_update_inv _ i ih
    | fire t ht => exact fireTimer_inv _ t ih
    | remove => exact remove_inv _ ih

/-! Claim theorems. -/

/-- C3: for a record with all three timestamps present and no parse error,
when the observer's current local calendar date is strictly after the local
calendar date of the localDateTime anchor, the resolver yields waiting no
matter how currentUtcMillis compares to the window bounds: the rollover
branch of line 161 is evaluated first. -/
theorem claim3_rollover_wins (ctx : TimeCtx) (sv ev : JVal) (ltMillis : Int)
    (h : ctx.nowLocalDate > ctx.localDateOfMillis ltMillis) :
    resolveInstance ctx sv ev ltMillis = Except.ok (some "waiting") :=
  resolveInstance_roll ctx sv ev ltMillis h

theorem claim3_rollover_wins_witness :
    ctxRoll.nowLocalDate > ctxRoll.localDateOfMillis 0 ∧
    resolveInstance ctxRoll (JVal.num 100) (JVal.num 200) 0 =
      Except.ok (some "waiting") :=
  ⟨by decide, claim3_rollover_wins ctxRoll (JVal.num 100) (JVal.num 200) 0 (by decide)⟩

/-- C4 counterexample: the claim reads its three cases as unguarded
conditionals, but with startMillis = 10, endMillis = 0 and
currentUtcMillis = 5 (no local-day rollover) we have
currentUtcMillis > endMillis while the code resolves waiting, not past,
because the cur < start branch of line 165 is evaluated first. -/
theorem claim4_counterexample :
    ctxFlat.currentUtcMillis > 0 ∧
    ¬ ctxFlat.nowLocalDate > ctxFlat.localDateOfMillis 0 ∧
    resolveInstance ctxFlat (JVal.num 10) (JVal.num 0) 0 =
      Except.ok (some "waiting") ∧
    (Except.ok (some "waiting") : Except PyCrash (Option String)) ≠
      Except.ok (some "past") := by
  refine ⟨by decide, by decide, by decide, by decide⟩

/-- C4 (amended): with no local-day rollover the branches are evaluated in
the priority order of the if/elif chain: inside the inclusive window
(including equality at either endpoint) the instance is now; strictly
before the window start it is waiting; strictly after the window end, when
the instant is not also before the start, it is past. -/
theorem claim4_window_rules (ctx : TimeCtx) (s e l : Int)
    (hroll : ¬ ctx.nowLocalDate > ctx.localDateOfMillis l) :
    (s ≤ ctx.currentUtcMillis → ctx.currentUtcMillis ≤ e →
      resolveInstance ctx (JVal.num s) (JVal.num e) l = Except.ok (some "now")) ∧
    (ctx.currentUtcMillis < s →
      resolveInstance ctx (JVal.num s) (JVal.num e) l = Except.ok (some "waiting")) ∧
    (s ≤ ctx.currentUtcMillis → e < ctx.currentUtcMillis →
      resolveInstance ctx (JVal.num s) (JVal.num e) l = Except.ok (some "past")) := by
  refine ⟨fun h1 h2 => ?_, fun h1 => ?_, fun h1 h2 => ?_⟩ <;>
      rw [resolveInstance_no_roll ctx _ _ l hroll]
  · simp [windowInstance, jNumeric, h1, h2]
  · simp [windowInstance, jNumeric, not_le.mpr h1]
  · simp [windowInstance, jNumeric, h1, not_le.mpr h2]

theorem claim4_window_rules_witness :
    ¬ ctxFlat.nowLocalDate > ctxFlat.localDateOfMillis 0 ∧
    resolveInstance ctxFlat (JVal.num 0) (JVal.num 5) 0 = Except.ok (some "now") :=
  ⟨by decide, (claim4_window_rules ctxFlat 0 5 0 (by decide)).1 (by decide) (by decide)⟩

/-- C9: the source resolver, which after the if/elif chain additionally
forces waiting when local time is at or past 06:00 and the local day has
rolled over (lines 170-172), computes exactly the same instance as the
rules 1-4 of the specification alone: the cutoff can only fire when the
rollover branch already produced waiting. -/
theorem claim9_cutoff_equivalent (ctx : TimeCtx) (s e l : Int) :
    resolveInstance ctx (JVal.num s) (JVal.num e) l =
      Except.ok (resolveRulesOneToFour ctx s e l) := by
  by_cases hroll : ctx.nowLocalDate > ctx.localDateOfMillis l
  · rw [resolveInstance_roll ctx _ _ l hroll]
    simp [resolveRulesOneToFour, hroll]
  · rw [resolveInstance_no_roll ctx _ _ l hroll]
    rcases windowInstance_num_cases ctx.currentUtcMillis s e with
      ⟨h1, h2, hw⟩ | ⟨h1, hw⟩ | ⟨h1, h2, hw⟩
    · rw [hw]
      simp [resolveRulesOneToFour, hroll, h1, h2]
    · rw [hw]
      simp [resolveRulesOneToFour, hroll, h1, not_le.mpr h1]
    · rw [hw]
      simp [resolveRulesOneToFour, hroll, h1, h2, not_le.mpr h2, not_lt.mpr h1]

/-- C10: when startDate, endDate, localDate and localTime are all present
and all parse, the full normalizer succeeds and assigns an instance that is
one of now, waiting, past — never the absent marker: the decision branches
are exhaustive over all integer timestamp values, also when
startMillis > endMillis. -/
theorem claim10_exhaustive (pIso pLoc : String → Option Int) (ctx : TimeCtx)
    (d : JDict) (s1 s2 : String) (v1 v2 : JVal) (n1 n2 n3 : Int)
    (hs : dlookup d "startDate" = some (JVal.str s1))
    (hps : pIso (zrepl s1) = some n1)
    (he : dlookup d "endDate" = some (JVal.str s2))
    (hpe : pIso (zrepl s2) = some n2)
    (hld : dlookup d "localDate" = some v1)
    (hlt : dlookup d "localTime" = some v2)
    (hpl : pLoc (toPyStr v1 ++ "T" ++ toPyStr v2 ++ ":00") = some n3) :
    ∃ r, parse_bereal_data pIso pLoc ctx d = Except.ok r ∧
      (dlookup r "instance" = some (JVal.str "now") ∨
       dlookup r "instance" = some (JVal.str "waiting") ∨
       dlookup r "instance" = some (JVal.str "past")) := by
  have h1 : normDate pIso d "startDate" =
      NormStep.ok (dset d "startDate" (JVal.num n1)) :=
    normDate_parsed pIso d "startDate" s1 n1 hs hps
  have he1 : dlookup (dset d "startDate" (JVal.num n1)) "endDate" =
      some (JVal.str s2) := by
    rw [dlookup_dset_ne d _ _ _ (by decide)]
    exact he
  have h2 : normDate pIso (dset d "startDate" (JVal.num n1)) "endDate" =
      NormStep.ok (dset (dset d "startDate" (JVal.num n1)) "endDate"
        (JVal.num n2)) :=
    normDate_parsed pIso _ "endDate" s2 n2 he1 hpe
  have hld2 : dlookup (dset (dset d "startDate" (JVal.num n1)) "endDate"
      (JVal.num n2)) "localDate" = some v1 := by
    rw [dlookup_dset_ne _ _ _ _ (by decide), dlookup_dset_ne _ _ _ _ (by decide)]
    exact hld
  have hlt2 : dlookup (dset (dset d "startDate" (JVal.num n1)) "endDate"
      (JVal.num n2)) "localTime" = some v2 := by
    rw [dlookup_dset_ne _ _ _ _ (by decide), dlookup_dset_ne _ _ _ _ (by decide)]
    exact hlt
  have h3 : normLocal pLoc (dset (dset d "startDate" (JVal.num n1)) "endDate"
      (JVal.num n2)) = NormStep.ok (dset (dset (dset d "startDate"
        (JVal.num n1)) "endDate" (JVal.num n2)) "localDateTime"
        (JVal.num n3)) :=
    normLocal_parsed pLoc _ v1 v2 n3 hld2 hlt2 hpl
  have hp : parse_bereal_data pIso pLoc ctx d =
      parsePostTry ctx (dset (dset (dset d "startDate" (JVal.num n1))
        "endDate" (JVal.num n2)) "localDateTime" (JVal.num n3)) :=
    parse_steps pIso pLoc ctx d _ _ _ h1 h2 h3
  have gs : pyGet (dset (dset (dset d "startDate" (JVal.num n1)) "endDate"
      (JVal.num n2)) "localDateTime" (JVal.num n3)) "startDate" =
      some (JVal.num n1) := by
    unfold pyGet
    rw [dlookup_dset_ne _ _ _ _ (by decide), dlookup_dset_ne _ _ _ _ (by decide),
      dlookup_dset_self]
  have ge : pyGet (dset (dset (dset d "startDate" (JVal.num n1)) "endDate"
      (JVal.num n2)) "localDateTime" (JVal.num n3)) "endDate" =
      some (JVal.num n2) := by
    unfold pyGet
    rw [dlookup_dset_ne _ _ _ _ (by decide), dlookup_dset_self]
  have gl : pyGet (dset (dset (dset d "startDate" (JVal.num n1)) "endDate"
      (JVal.num n2)) "localDateTime" (JVal.num n3)) "localDateTime" =
      some (JVal.num n3) := by
    unfold pyGet
    rw [dlookup_dset_self]
  have hres : ∃ i, resolveInstance ctx (JVal.num n1) (JVal.num n2) n3 =
      Except.ok (some i) ∧ (i = "now" ∨ i = "waiting" ∨ i = "past") := by
    by_cases hroll : ctx.nowLocalDate > ctx.localDateOfMillis n3
    · exact ⟨"waiting", resolveInstance_roll ctx _ _ n3 hroll, Or.inr (Or.inl rfl)⟩
    · rw [resolveInstance_no_roll ctx _ _ n3 hroll]
      rcases windowInstance_num_cases ctx.currentUtcMillis n1 n2 with
        ⟨_, _, hw⟩ | ⟨_, hw⟩ | ⟨_, _, hw⟩
      · exact ⟨"now", hw, Or.inl rfl⟩
      · exact ⟨"waiting", hw, Or.inr (Or.inl rfl)⟩
      · exact ⟨"past", hw, Or.inr (Or.inr rfl)⟩
  obtain ⟨i, hri, hi⟩ := hres
  refine ⟨_, hp.trans (parsePostTry_present ctx _ n1 n2 n3 (some i) gs ge gl hri), ?_⟩
  rw [dlookup_dset_self]
  rcases hi with rfl | rfl | rfl
  · exact Or.inl rfl
  · exact Or.inr (Or.inl rfl)
  · exact Or.inr (Or.inr rfl)

theorem claim10_exhaustive_witness :
    (parse_bereal_data pIsoAll pIsoAll ctxFlat
        [("startDate", JVal.str "s"), ("endDate", JVal.str "e"),
         ("localDate", JVal.str "d"), ("localTime", JVal.str "t")]).map
      (fun r => dlookup r "instance") = Except.ok (some (JVal.str "past")) ∧
    (∃ r, parse_bereal_data pIsoAll pIsoAll ctxFlat
        [("startDate", JVal.str "s"), ("endDate", JVal.str "e"),
         ("localDate", JVal.str "d"), ("localTime", JVal.str "t")] =
      Except.ok r ∧
      (dlookup r "instance" = some (JVal.str "now") ∨
       dlookup r "instance" = some (JVal.str "waiting") ∨
       dlookup r "instance" = some (JVal.str "past"))) :=
  ⟨by decide,
   claim10_exhaustive pIsoAll pIsoAll ctxFlat
    [("startDate", JVal.str "s"), ("endDate", JVal.str "e"),
     ("localDate", JVal.str "d"), ("localTime", JVal.str "t")]
    "s" "e" (JVal.str "d") (JVal.str "t") 0 0 0
    (by decide) (by decide) (by decide) (by decide) (by decide) (by decide)
    (by decide)⟩

/-- C7: on every reachable scheduler state, at most one timer is armed and
it is exactly the one whose cancel handle the sensor holds; rescheduling
removes the replaced timer from the armed pool (so it can never fire), and
teardown leaves no armed timer, so no further fetch cycle fires. -/
theorem claim7_timer_invariant (s : SchedState) (h : SchedReach s) :
    s.live.length ≤ 1 ∧ (∀ t ∈ s.live, s.unsub = some t) ∧
    (∀ i t, s.unsub = some t → t ∉ (schedule_next_update s i).live) ∧
    (async_will_remove_from_hass s).live = [] := by
  obtain ⟨h1, h2, h3⟩ := schedReach_inv h
  refine ⟨h2, h1, ?_, ?_⟩
  · intro i t ht hmem
    have hn : t < s.nextId := h3 t ht
    have hl : (schedule_next_update s i).live =
        s.live.filter (fun x => x ≠ t) ++ [s.nextId] := by
      simp [schedule_next_update, ht]
    rw [hl] at hmem
    rcases List.mem_append.mp hmem with hm | hm
    · have := List.mem_filter.mp hm
      simp at this
    · simp at hm
      omega
  · cases hu : s.unsub with
    | none =>
      have hlv : s.live = [] := by
        cases hlv1 : s.live with
        | nil => rfl
        | cons a l =>
          have := h1 a (by simp [hlv1])
          rw [hu] at this
          cases this
      simp [async_will_remove_from_hass, hu, hlv]
    | some u =>
      have hall : ∀ x ∈ s.live, x = u := fun x hx => by
        have := h1 x hx
        rw [hu] at this
        exact (Option.some.inj this).symm
      have hfil : s.live.filter (fun x => x ≠ u) = [] :=
        filter_ne_nil_of_all_eq hall
      simp [async_will_remove_from_hass, hu, hfil]
      exact hall

theorem nextIntervalSecs_eq (inst : Option JVal) :
    nextIntervalSecs inst =
      (if inst.getD JVal.null = JVal.str "past" then LONG_INTERVAL
       else SHORT_INTERVAL) := by
  cases inst with
  | none => simp [nextIntervalSecs]
  | some v =>
    cases v with
    | str s =>
      simp only [nextIntervalSecs, Option.getD, Option.some.injEq, JVal.str.injEq]
      split_ifs <;> simp_all
    | num n => simp [nextIntervalSecs]
    | bool b => simp [nextIntervalSecs]
    | null => simp [nextIntervalSecs]
    | arr => simp [nextIntervalSecs]
    | obj => simp [nextIntervalSecs]

/-- C6: whenever one update cycle completes, the delay armed for the next
fetch is 2 hours exactly when the reported value is the string past, and 5
seconds in every other case — success with now, waiting, an absent (None)
instance or any unrecognized value, and every transport or decode failure;
the reported current_scan_interval attribute always equals that delay. -/
theorem claim6_delay_mapping (pIso pLoc : String → Option Int) (ctx : TimeCtx)
    (fetch : FetchResult) (out : CycleOutcome)
    (h : async_update pIso pLoc ctx fetch = Except.ok out) :
    out.nextDelaySecs =
      (if out.nativeValue = JVal.str "past" then LONG_INTERVAL
       else SHORT_INTERVAL) ∧
    out.scanIntervalSecs = out.nextDelaySecs := by
  cases fetch with
  | transportError msg =>
    simp only [async_update, Except.ok.injEq] at h
    subst h
    refine ⟨?_, rfl⟩
    show (SHORT_INTERVAL : Int) =
      if JVal.str "error" = JVal.str "past" then LONG_INTERVAL
      else SHORT_INTERVAL
    decide
  | decodeError msg =>
    simp only [async_update, Except.ok.injEq] at h
    subst h
    refine ⟨?_, rfl⟩
    show (SHORT_INTERVAL : Int) =
      if JVal.str "error" = JVal.str "past" then LONG_INTERVAL
      else SHORT_INTERVAL
    decide
  | payload top =>
    cases top with
    | jnonObj => simp [async_update] at h
    | jobj d =>
      cases hp : parse_bereal_data pIso pLoc ctx d with
      | error c => simp [async_update, hp] at h
      | ok parsed =>
        simp only [async_update, hp, Except.ok.injEq] at h
        subst h
        exact ⟨nextIntervalSecs_eq (pyGet parsed "instance"), rfl⟩

/-- The outcome of the except branch of lines 102-110 for the message boom. -/
def errOutBoom : CycleOutcome :=
  { nativeValue := JVal.str "error", apiParsed := [], apiRaw := "Error: boom"
    currentTimeUtc := JVal.null, scanIntervalSecs := 5, nextDelaySecs := 5 }

theorem claim6_delay_mapping_witness :
    errOutBoom.nextDelaySecs =
      (if errOutBoom.nativeValue = JVal.str "past" then LONG_INTERVAL
       else SHORT_INTERVAL) ∧
    errOutBoom.scanIntervalSecs = errOutBoom.nextDelaySecs :=
  claim6_delay_mapping pIsoAll pIsoAll ctxFlat
    (FetchResult.transportError "boom") errOutBoom (by decide)

/-- C1 counterexample: for the object payload whose startDate is the
unparseable string bad, the cycle completes with reported value None (JSON
null) — not the string error — so the date-parse failure class is not
handled like the transport and decode failure classes. -/
theorem claim1_counterexample :
    (async_update pIsoNone pIsoNone ctxFlat
        (FetchResult.payload (JTop.jobj [("startDate", JVal.str "bad")]))).map
      CycleOutcome.nativeValue = Except.ok JVal.null ∧
    (JVal.null : JVal) ≠ JVal.str "error" :=
  ⟨by decide, by decide⟩

/-- Whenever the normalizer takes the caught-ValueError early return of
lines 137-139 — the returned record is the working dict dk with only the
error message attached — the cycle completes with reported value None, the
parse-error message inside the parsed attributes, and the 5-second rearm
delay, provided the working dict carries no instance entry of its own. -/
theorem async_update_perr (pIso pLoc : String → Option Int) (ctx : TimeCtx)
    (d dk : JDict) (msg : String)
    (hp : parse_bereal_data pIso pLoc ctx d =
      Except.ok (dset dk "error" (JVal.str msg)))
    (hi : pyGet dk "instance" = none)
    (hc : pyGet dk "current_time_utc" = pyGet d "current_time_utc") :
    async_update pIso pLoc ctx (FetchResult.payload (JTop.jobj d)) =
      Except.ok
        { nativeValue := JVal.null,
          apiParsed := dset dk "error" (JVal.str msg),
          apiRaw := jsonDumps (JTop.jobj d),
          currentTimeUtc := (pyGet d "current_time_utc").getD JVal.null,
          scanIntervalSecs := SHORT_INTERVAL,
          nextDelaySecs := SHORT_INTERVAL } := by
  have hpe : pyGet (dset dk "error" (JVal.str msg)) "instance" = none := by
    rw [pyGet_dset_ne dk _ _ _ (by decide)]
    exact hi
  have hpc : pyGet (dset dk "error" (JVal.str msg)) "current_time_utc" =
      pyGet d "current_time_utc" := by
    rw [pyGet_dset_ne dk _ _ _ (by decide)]
    exact hc
  simp [async_update, hp, hpe, hpc, nextIntervalSecs]

/-- C1 (amended): transport and JSON decode failures are reported as the
string error with the message carried in the api_raw attribute and a
5-second rearm; a malformed date field — an unparseable startDate, an
unparseable endDate, or an unparseable localDate+localTime pair — instead
completes the cycle with the parse-error message carried inside the parsed
attributes and a 5-second rearm (for a payload that does not itself carry
an instance entry), but its reported value is None, not the string
error. -/
theorem claim1_failure_handling (pIso pLoc : String → Option Int)
    (ctx : TimeCtx) (m : String) :
    async_update pIso pLoc ctx (FetchResult.transportError m) =
      Except.ok
        { nativeValue := JVal.str "error", apiParsed := [],
          apiRaw := "Error: " ++ m, currentTimeUtc := JVal.null,
          scanIntervalSecs := SHORT_INTERVAL, nextDelaySecs := SHORT_INTERVAL } ∧
    async_update pIso pLoc ctx (FetchResult.decodeError m) =
      Except.ok
        { nativeValue := JVal.str "error", apiParsed := [],
          apiRaw := "Error: " ++ m, currentTimeUtc := JVal.null,
          scanIntervalSecs := SHORT_INTERVAL, nextDelaySecs := SHORT_INTERVAL } ∧
    (∀ d msg, normDate pIso d "startDate" = NormStep.perr msg →
      pyGet d "instance" = none →
      async_update pIso pLoc ctx (FetchResult.payload (JTop.jobj d)) =
        Except.ok
          { nativeValue := JVal.null,
            apiParsed := dset d "error" (JVal.str msg),
            apiRaw := jsonDumps (JTop.jobj d),
            currentTimeUtc := (pyGet d "current_time_utc").getD JVal.null,
            scanIntervalSecs := SHORT_INTERVAL,
            nextDelaySecs := SHORT_INTERVAL } ∧
      dlookup (dset d "error" (JVal.str msg)) "error" = some (JVal.str msg)) ∧
    (∀ d d1 msg, normDate pIso d "startDate" = NormStep.ok d1 →
      normDate pIso d1 "endDate" = NormStep.perr msg →
      pyGet d "instance" = none →
      async_update pIso pLoc ctx (FetchResult.payload (JTop.jobj d)) =
        Except.ok
          { nativeValue := JVal.null,
            apiParsed := dset d1 "error" (JVal.str msg),
            apiRaw := jsonDumps (JTop.jobj d),
            currentTimeUtc := (pyGet d "current_time_utc").getD JVal.null,
            scanIntervalSecs := SHORT_INTERVAL,
            nextDelaySecs := SHORT_INTERVAL } ∧
      dlookup (dset d1 "error" (JVal.str msg)) "error" = some (JVal.str msg)) ∧
    (∀ d d1 d2 msg, normDate pIso d "startDate" = NormStep.ok d1 →
      normDate pIso d1 "endDate" = NormStep.ok d2 →
      normLocal pLoc d2 = NormStep.perr msg →
      pyGet d "instance" = none →
      async_update pIso pLoc ctx (FetchResult.payload (JTop.jobj d)) =
        Except.ok
          { nativeValue := JVal.null,
            apiParsed := dset d2 "error" (JVal.str msg),
            apiRaw := jsonDumps (JTop.jobj d),
            currentTimeUtc := (pyGet d "current_time_utc").getD JVal.null,
            scanIntervalSecs := SHORT_INTERVAL,
            nextDelaySecs := SHORT_INTERVAL } ∧
      dlookup (dset d2 "error" (JVal.str msg)) "error" =
        some (JVal.str msg)) := by
  refine ⟨rfl, rfl, ?_, ?_, ?_⟩
  · intro d msg h1 hi
    exact ⟨async_update_perr pIso pLoc ctx d d msg
      (parse_perr_start pIso pLoc ctx d msg h1) hi rfl,
      dlookup_dset_self _ _ _⟩
  · intro d d1 msg h1 h2 hi
    have pi : pyGet d1 "instance" = none := by
      rw [pyGet_congr d1 d "instance"
        (normDate_ok_pres pIso d "startDate" d1 "instance" (by decide) h1)]
      exact hi
    have pc : pyGet d1 "current_time_utc" = pyGet d "current_time_utc" :=
      pyGet_congr d1 d _
        (normDate_ok_pres pIso d "startDate" d1 "current_time_utc"
          (by decide) h1)
    exact ⟨async_update_perr pIso pLoc ctx d d1 msg
      (parse_perr_end pIso pLoc ctx d d1 msg h1 h2) pi pc,
      dlookup_dset_self _ _ _⟩
  · intro d d1 d2 msg h1 h2 h3 hi
    have pi : pyGet d2 "instance" = none := by
      rw [pyGet_congr d2 d1 "instance"
        (normDate_ok_pres pIso d1 "endDate" d2 "instance" (by decide) h2),
        pyGet_congr d1 d "instance"
          (normDate_ok_pres pIso d "startDate" d1 "instance" (by decide) h1)]
      exact hi
    have pc : pyGet d2 "current_time_utc" = pyGet d "current_time_utc" := by
      rw [pyGet_congr d2 d1 _
        (normDate_ok_pres pIso d1 "endDate" d2 "current_time_utc"
          (by decide) h2)]
      exact pyGet_congr d1 d _
        (normDate_ok_pres pIso d "startDate" d1 "current_time_utc"
          (by decide) h1)
    exact ⟨async_update_perr pIso pLoc ctx d d2 msg
      (parse_perr_local pIso pLoc ctx d d1 d2 msg h1 h2 h3) pi pc,
      dlookup_dset_self _ _ _⟩

/-- A date parser that accepts exactly the string good (as epoch 0). -/
def pIsoSel : String → Option Int := fun s => if s = "good" then some 0 else none

theorem claim1_failure_handling_witness :
    (async_update pIsoSel pIsoNone ctxFlat
        (FetchResult.payload (JTop.jobj [("startDate", JVal.str "bad")])) =
      Except.ok
        { nativeValue := JVal.null,
          apiParsed := dset [("startDate", JVal.str "bad")] "error"
            (JVal.str (perrMsg (zrepl "bad"))),
          apiRaw := jsonDumps (JTop.jobj [("startDate", JVal.str "bad")]),
          currentTimeUtc :=
            (pyGet [("startDate", JVal.str "bad")] "current_time_utc").getD
              JVal.null,
          scanIntervalSecs := SHORT_INTERVAL,
          nextDelaySecs := SHORT_INTERVAL } ∧
      dlookup (dset [("startDate", JVal.str "bad")] "error"
          (JVal.str (perrMsg (zrepl "bad")))) "error" =
        some (JVal.str (perrMsg (zrepl "bad")))) ∧
    (async_update pIsoSel pIsoNone ctxFlat
        (FetchResult.payload (JTop.jobj
          [("startDate", JVal.str "good"), ("endDate", JVal.str "bad")])) =
      Except.ok
        { nativeValue := JVal.null,
          apiParsed := dset (dset [("startDate", JVal.str "good"),
              ("endDate", JVal.str "bad")] "startDate" (JVal.num 0)) "error"
            (JVal.str (perrMsg (zrepl "bad"))),
          apiRaw := jsonDumps (JTop.jobj [("startDate", JVal.str "good"),
            ("endDate", JVal.str "bad")]),
          currentTimeUtc :=
            (pyGet [("startDate", JVal.str "good"), ("endDate", JVal.str "bad")]
              "current_time_utc").getD JVal.null,
          scanIntervalSecs := SHORT_INTERVAL,
          nextDelaySecs := SHORT_INTERVAL } ∧
      dlookup (dset (dset [("startDate", JVal.str "good"),
          ("endDate", JVal.str "bad")] "startDate" (JVal.num 0)) "error"
          (JVal.str (perrMsg (zrepl "bad")))) "error" =
        some (JVal.str (perrMsg (zrepl "bad")))) ∧
    (async_update pIsoSel pIsoNone ctxFlat
        (FetchResult.payload (JTop.jobj
          [("localDate", JVal.str "ld"), ("localTime", JVal.str "lt")])) =
      Except.ok
        { nativeValue := JVal.null,
          apiParsed := dset [("localDate", JVal.str "ld"),
              ("localTime", JVal.str "lt")] "error"
            (JVal.str (perrMsg "ldTlt:00")),
          apiRaw := jsonDumps (JTop.jobj [("localDate", JVal.str "ld"),
            ("localTime", JVal.str "lt")]),
          currentTimeUtc :=
            (pyGet [("localDate", JVal.str "ld"), ("localTime", JVal.str "lt")]
              "current_time_utc").getD JVal.null,
          scanIntervalSecs := SHORT_INTERVAL,
          nextDelaySecs := SHORT_INTERVAL } ∧
      dlookup (dset [("localDate", JVal.str "ld"),
          ("localTime", JVal.str "lt")] "error"
          (JVal.str (perrMsg "ldTlt:00"))) "error" =
        some (JVal.str (perrMsg "ldTlt:00"))) :=
  ⟨(claim1_failure_handling pIsoSel pIsoNone ctxFlat "x").2.2.1
      [("startDate", JVal.str "bad")] (perrMsg (zrepl "bad"))
      (by decide) (by decide),
   (claim1_failure_handling pIsoSel pIsoNone ctxFlat "x").2.2.2.1
      [("startDate", JVal.str "good"), ("endDate", JVal.str "bad")]
      (dset [("startDate", JVal.str "good"), ("endDate", JVal.str "bad")]
        "startDate" (JVal.num 0))
      (perrMsg (zrepl "bad")) (by decide) (by decide) (by decide),
   (claim1_failure_handling pIsoSel pIsoNone ctxFlat "x").2.2.2.2
      [("localDate", JVal.str "ld"), ("localTime", JVal.str "lt")]
      [("localDate", JVal.str "ld"), ("localTime", JVal.str "lt")]
      [("localDate", JVal.str "ld"), ("localTime", JVal.str "lt")]
      (perrMsg "ldTlt:00") (by decide) (by decide) (by decide) (by decide)⟩

theorem claim7_timer_invariant_witness :
    (schedule_next_update initSched 5).live.length ≤ 1 ∧
    (∀ t ∈ (schedule_next_update initSched 5).live,
      (schedule_next_update initSched 5).unsub = some t) ∧
    (∀ i t, (schedule_next_update initSched 5).unsub = some t →
      t ∉ (schedule_next_update (schedule_next_update initSched 5) i).live) ∧
    (async_will_remove_from_hass (schedule_next_update initSched 5)).live = [] :=
  claim7_timer_invariant (schedule_next_update initSched 5)
    (SchedReach.step SchedReach.start (SchedStep.sched initSched 5))

/-- Whenever the post-try section returns a record, that record carries the
current_time_utc stamp of line 143. -/
theorem parsePostTry_ctu (ctx : TimeCtx) (d3 r : JDict)
    (h : parsePostTry ctx d3 = Except.ok r) :
    dlookup r "current_time_utc" = some (JVal.num ctx.currentUtcMillis) := by
  have key : ∀ x : JVal,
      r = dset (dset d3 "current_time_utc" (JVal.num ctx.currentUtcMillis))
        "instance" x →
      dlookup r "current_time_utc" = some (JVal.num ctx.currentUtcMillis) := by
    intro x hr
    subst hr
    rw [dlookup_dset_ne _ _ _ _ (by decide), dlookup_dset_self]
  simp only [parsePostTry] at h
  split at h
  · split at h
    · cases h
    · split at h
      · cases h
      · exact key _ (Except.ok.inj h).symm
  · exact key _ (Except.ok.inj h).symm

/-- C8 counterexample: the payload with unparseable startDate bad and a
pre-existing instance entry makes the normalizer return a record that does
contain an instance value (the raw one is passed through by data.copy), so
the returned record is not free of instance values as claimed. -/
theorem claim8_counterexample :
    (parse_bereal_data pIsoNone pIsoNone ctxFlat
        [("startDate", JVal.str "bad"), ("instance", JVal.str "now")]).map
      (fun r => dlookup r "instance") =
      Except.ok (some (JVal.str "now")) := by decide

/-- C8 (amended): a malformed date field makes the normalizer return at
once the input record with only the parse-error message attached (besides
any date fields already normalized before the failure): the normalizer
itself adds no instance entry and no currentUtcMillis stamp, so those
entries of the returned record are exactly the raw payload entries; and
whenever no date field is malformed, any record the normalizer returns
carries the currentUtcMillis stamp. -/
theorem claim8_failfast (pIso pLoc : String → Option Int) (ctx : TimeCtx) :
    (∀ d msg, normDate pIso d "startDate" = NormStep.perr msg →
      parse_bereal_data pIso pLoc ctx d =
        Except.ok (dset d "error" (JVal.str msg)) ∧
      dlookup (dset d "error" (JVal.str msg)) "instance" =
        dlookup d "instance" ∧
      dlookup (dset d "error" (JVal.str msg)) "current_time_utc" =
        dlookup d "current_time_utc") ∧
    (∀ d d1 msg, normDate pIso d "startDate" = NormStep.ok d1 →
      normDate pIso d1 "endDate" = NormStep.perr msg →
      parse_bereal_data pIso pLoc ctx d =
        Except.ok (dset d1 "error" (JVal.str msg)) ∧
      dlookup (dset d1 "error" (JVal.str msg)) "instance" =
        dlookup d "instance" ∧
      dlookup (dset d1 "error" (JVal.str msg)) "current_time_utc" =
        dlookup d "current_time_utc") ∧
    (∀ d d1 d2 msg, normDate pIso d "startDate" = NormStep.ok d1 →
      normDate pIso d1 "endDate" = NormStep.ok d2 →
      normLocal pLoc d2 = NormStep.perr msg →
      parse_bereal_data pIso pLoc ctx d =
        Except.ok (dset d2 "error" (JVal.str msg)) ∧
      dlookup (dset d2 "error" (JVal.str msg)) "instance" =
        dlookup d "instance" ∧
      dlookup (dset d2 "error" (JVal.str msg)) "current_time_utc" =
        dlookup d "current_time_utc") ∧
    (∀ d d1 d2 d3 r, normDate pIso d "startDate" = NormStep.ok d1 →
      normDate pIso d1 "endDate" = NormStep.ok d2 →
      normLocal pLoc d2 = NormStep.ok d3 →
      parse_bereal_data pIso pLoc ctx d = Except.ok r →
      dlookup r "current_time_utc" = some (JVal.num ctx.currentUtcMillis)) := by
  refine ⟨?_, ?_, ?_, ?_⟩
  · intro d msg h1
    exact ⟨parse_perr_start pIso pLoc ctx d msg h1,
      dlookup_dset_ne _ _ _ _ (by decide),
      dlookup_dset_ne _ _ _ _ (by decide)⟩
  · intro d d1 msg h1 h2
    refine ⟨parse_perr_end pIso pLoc ctx d d1 msg h1 h2, ?_, ?_⟩
    · rw [dlookup_dset_ne _ _ _ _ (by decide)]
      exact normDate_ok_pres pIso d "startDate" d1 "instance" (by decide) h1
    · rw [dlookup_dset_ne _ _ _ _ (by decide)]
      exact normDate_ok_pres pIso d "startDate" d1 "current_time_utc"
        (by decide) h1
  · intro d d1 d2 msg h1 h2 h3
    refine ⟨parse_perr_local pIso pLoc ctx d d1 d2 msg h1 h2 h3, ?_, ?_⟩
    · rw [dlookup_dset_ne _ _ _ _ (by decide),
        normDate_ok_pres pIso d1 "endDate" d2 "instance" (by decide) h2]
      exact normDate_ok_pres pIso d "startDate" d1 "instance" (by decide) h1
    · rw [dlookup_dset_ne _ _ _ _ (by decide),
        normDate_ok_pres pIso d1 "endDate" d2 "current_time_utc"
          (by decide) h2]
      exact normDate_ok_pres pIso d "startDate" d1 "current_time_utc"
        (by decide) h1
  · intro d d1 d2 d3 r h1 h2 h3 hr
    rw [parse_steps pIso pLoc ctx d d1 d2 d3 h1 h2 h3] at hr
    exact parsePostTry_ctu ctx d3 r hr

theorem claim8_failfast_witness :
    parse_bereal_data pIsoNone pIsoNone ctxFlat [("startDate", JVal.str "bad")] =
      Except.ok (dset [("startDate", JVal.str "bad")] "error"
        (JVal.str (perrMsg (zrepl "bad")))) ∧
    dlookup (dset [("startDate", JVal.str "bad")] "error"
        (JVal.str (perrMsg (zrepl "bad")))) "instance" =
      dlookup [("startDate", JVal.str "bad")] "instance" ∧
    dlookup (dset [("startDate", JVal.str "bad")] "error"
        (JVal.str (perrMsg (zrepl "bad")))) "current_time_utc" =
      dlookup [("startDate", JVal.str "bad")] "current_time_utc" :=
  (claim8_failfast pIsoNone pIsoNone ctxFlat).1 [("startDate", JVal.str "bad")]
    (perrMsg (zrepl "bad")) (by decide)

/-- C5 counterexample: a payload that has valid startDate and endDate, no
localDate and no localTime, but carries a raw localDateTime entry, does not
resolve to the absent marker: data.copy passes the raw localDateTime
through and all three presence tests of line 150 succeed, so the payload
resolves to waiting here. -/
theorem claim5_counterexample :
    dlookup [("startDate", JVal.str "a"), ("endDate", JVal.str "b"),
      ("localDateTime", JVal.num 0)] "localDate" = none ∧
    (parse_bereal_data pIsoAll pIsoAll ctxRoll
        [("startDate", JVal.str "a"), ("endDate", JVal.str "b"),
         ("localDateTime", JVal.num 0)]).map (fun r => dlookup r "instance") =
      Except.ok (some (JVal.str "waiting")) ∧
    (JVal.str "waiting" : JVal) ≠ JVal.null :=
  ⟨by decide, by decide, by decide⟩

/-- C5 (amended): when the three normalization steps succeed and, after
them, any of startDate, endDate or localDateTime reads back as absent (or
null), the resolved instance is the absent marker None and never now,
waiting or past; in particular a payload missing localDate or localTime
and carrying no raw localDateTime entry resolves to absent even when
startDate and endDate are present and valid. -/
theorem claim5_absent (pIso pLoc : String → Option Int) (ctx : TimeCtx) :
    (∀ d d1 d2 d3, normDate pIso d "startDate" = NormStep.ok d1 →
      normDate pIso d1 "endDate" = NormStep.ok d2 →
      normLocal pLoc d2 = NormStep.ok d3 →
      (pyGet d3 "startDate" = none ∨ pyGet d3 "endDate" = none ∨
        pyGet d3 "localDateTime" = none) →
      ∃ r, parse_bereal_data pIso pLoc ctx d = Except.ok r ∧
        dlookup r "instance" = some JVal.null) ∧
    (∀ d d1 d2, (dlookup d "localDate" = none ∨ dlookup d "localTime" = none) →
      dlookup d "localDateTime" = none →
      normDate pIso d "startDate" = NormStep.ok d1 →
      normDate pIso d1 "endDate" = NormStep.ok d2 →
      ∃ r, parse_bereal_data pIso pLoc ctx d = Except.ok r ∧
        dlookup r "instance" = some JVal.null) := by
  refine ⟨?_, ?_⟩
  · intro d d1 d2 d3 h1 h2 h3 habs
    refine ⟨_, (parse_steps pIso pLoc ctx d d1 d2 d3 h1 h2 h3).trans
      (parsePostTry_absent ctx d3 habs), ?_⟩
    rw [dlookup_dset_self]
  · intro d d1 d2 hld hldt h1 h2
    have e1 : dlookup d2 "localDate" = dlookup d "localDate" := by
      rw [normDate_ok_pres pIso d1 "endDate" d2 "localDate" (by decide) h2,
        normDate_ok_pres pIso d "startDate" d1 "localDate" (by decide) h1]
    have e2 : dlookup d2 "localTime" = dlookup d "localTime" := by
      rw [normDate_ok_pres pIso d1 "endDate" d2 "localTime" (by decide) h2,
        normDate_ok_pres pIso d "startDate" d1 "localTime" (by decide) h1]
    have e3 : dlookup d2 "localDateTime" = dlookup d "localDateTime" := by
      rw [normDate_ok_pres pIso d1 "endDate" d2 "localDateTime" (by decide) h2,
        normDate_ok_pres pIso d "startDate" d1 "localDateTime" (by decide) h1]
    have h3 : normLocal pLoc d2 = NormStep.ok d2 := by
      refine normLocal_absent pLoc d2 ?_
      rcases hld with h | h
      · exact Or.inl (e1.trans h)
      · exact Or.inr (e2.trans h)
    have habs : pyGet d2 "localDateTime" = none := by
      simp [pyGet, e3, hldt]
    refine ⟨_, (parse_steps pIso pLoc ctx d d1 d2 d2 h1 h2 h3).trans
      (parsePostTry_absent ctx d2 (Or.inr (Or.inr habs))), ?_⟩
    rw [dlookup_dset_self]

theorem claim5_absent_witness :
    (parse_bereal_data pIsoAll pIsoAll ctxFlat
        [("startDate", JVal.str "a"), ("endDate", JVal.str "b")]).map
      (fun r => dlookup r "instance") = Except.ok (some JVal.null) ∧
    ∃ r, parse_bereal_data pIsoAll pIsoAll ctxFlat
        [("startDate", JVal.str "a"), ("endDate", JVal.str "b")] =
      Except.ok r ∧ dlookup r "instance" = some JVal.null :=
  ⟨by decide,
  (claim5_absent pIsoAll pIsoAll ctxFlat).2
    [("startDate", JVal.str "a"), ("endDate", JVal.str "b")]
    (dset [("startDate", JVal.str "a"), ("endDate", JVal.str "b")]
      "startDate" (JVal.num 0))
    (dset (dset [("startDate", JVal.str "a"), ("endDate", JVal.str "b")]
      "startDate" (JVal.num 0)) "endDate" (JVal.num 0))
    (Or.inl (by decide)) (by decide) (by decide) (by decide)⟩

/-! Totality of one cycle on well-typed object payloads (claim C2). -/

theorem normLocal_fail (pLoc : String → Option Int) (d : JDict) (v1 v2 : JVal)
    (h1 : dlookup d "localDate" = some v1)
    (h2 : dlookup d "localTime" = some v2)
    (hp : pLoc (toPyStr v1 ++ "T" ++ toPyStr v2 ++ ":00") = none) :
    normLocal pLoc d =
      NormStep.perr (perrMsg (toPyStr v1 ++ "T" ++ toPyStr v2 ++ ":00")) := by
  simp [normLocal, h1, h2, hp]

theorem pyGet_eq_some (d : JDict) (k : String) (v : JVal)
    (h : pyGet d k = some v) : dlookup d k = some v ∧ v ≠ JVal.null := by
  cases hd : dlookup d k with
  | none => simp [pyGet, hd] at h
  | some v1 =>
    cases v1 <;> simp [pyGet, hd] at h <;> subst h <;> exact ⟨rfl, by simp⟩

theorem resolveInstance_num_total (ctx : TimeCtx) (n1 n2 n3 : Int) :
    ∃ inst, resolveInstance ctx (JVal.num n1) (JVal.num n2) n3 =
      Except.ok inst := by
  by_cases hroll : ctx.nowLocalDate > ctx.localDateOfMillis n3
  · exact ⟨some "waiting", resolveInstance_roll ctx _ _ n3 hroll⟩
  · rw [resolveInstance_no_roll ctx _ _ n3 hroll]
    rcases windowInstance_num_cases ctx.currentUtcMillis n1 n2 with
      ⟨_, _, hw⟩ | ⟨_, hw⟩ | ⟨_, _, hw⟩ <;> exact ⟨_, hw⟩

theorem parsePostTry_total (ctx : TimeCtx) (d3 : JDict)
    (hS : ∀ v, pyGet d3 "startDate" = some v → ∃ n, v = JVal.num n)
    (hE : ∀ v, pyGet d3 "endDate" = some v → ∃ n, v = JVal.num n)
    (hL : ∀ v, pyGet d3 "localDateTime" = some v → ∃ n, v = JVal.num n) :
    ∃ r, parsePostTry ctx d3 = Except.ok r := by
  cases hx : pyGet d3 "startDate" with
  | none => exact ⟨_, parsePostTry_absent ctx d3 (Or.inl hx)⟩
  | some sv =>
    cases hy : pyGet d3 "endDate" with
    | none => exact ⟨_, parsePostTry_absent ctx d3 (Or.inr (Or.inl hy))⟩
    | some ev =>
      cases hz : pyGet d3 "localDateTime" with
      | none => exact ⟨_, parsePostTry_absent ctx d3 (Or.inr (Or.inr hz))⟩
      | some lv =>
        obtain ⟨n1, rfl⟩ := hS sv hx
        obtain ⟨n2, rfl⟩ := hE ev hy
        obtain ⟨n3, rfl⟩ := hL lv hz
        obtain ⟨inst, hri⟩ := resolveInstance_num_total ctx n1 n2 n3
        exact ⟨_, parsePostTry_present ctx d3 n1 n2 n3 inst hx hy hz hri⟩

theorem parse_total (pIso pLoc : String → Option Int) (ctx : TimeCtx)
    (d : JDict)
    (hS : ∀ v, dlookup d "startDate" = some v → ∃ s1, v = JVal.str s1)
    (hE : ∀ v, dlookup d "endDate" = some v → ∃ s2, v = JVal.str s2)
    (hL : ∀ v, dlookup d "localDateTime" = some v →
      (∃ n, v = JVal.num n) ∨ v = JVal.null) :
    ∃ r, parse_bereal_data pIso pLoc ctx d = Except.ok r := by
  have stepS : (∃ r, parse_bereal_data pIso pLoc ctx d = Except.ok r) ∨
      ∃ d1, normDate pIso d "startDate" = NormStep.ok d1 ∧
        (∀ v, pyGet d1 "startDate" = some v → ∃ n, v = JVal.num n) ∧
        dlookup d1 "endDate" = dlookup d "endDate" ∧
        dlookup d1 "localDate" = dlookup d "localDate" ∧
        dlookup d1 "localTime" = dlookup d "localTime" ∧
        dlookup d1 "localDateTime" = dlookup d "localDateTime" := by
    cases hc : dlookup d "startDate" with
    | none =>
      refine Or.inr ⟨d, normDate_absent pIso d "startDate" hc, ?_,
        rfl, rfl, rfl, rfl⟩
      intro v hv
      simp [pyGet, hc] at hv
    | some v =>
      obtain ⟨s1, rfl⟩ := hS v hc
      cases hp : pIso (zrepl s1) with
      | none =>
        exact Or.inl ⟨_, parse_perr_start pIso pLoc ctx d _
          (normDate_fail pIso d "startDate" s1 hc hp)⟩
      | some n1 =>
        refine Or.inr ⟨dset d "startDate" (JVal.num n1),
          normDate_parsed pIso d "startDate" s1 n1 hc hp, ?_,
          dlookup_dset_ne d _ _ _ (by decide),
          dlookup_dset_ne d _ _ _ (by decide),
          dlookup_dset_ne d _ _ _ (by decide),
          dlookup_dset_ne d _ _ _ (by decide)⟩
        intro v hv
        simp [pyGet, dlookup_dset_self] at hv
        exact ⟨n1, hv.symm⟩
  rcases stepS with done | ⟨d1, h1, f1S, f1E, f1LD, f1LT, f1LDT⟩
  · exact done
  have stepE : (∃ r, parse_bereal_data pIso pLoc ctx d = Except.ok r) ∨
      ∃ d2, normDate pIso d1 "endDate" = NormStep.ok d2 ∧
        (∀ v, pyGet d2 "startDate" = some v → ∃ n, v = JVal.num n) ∧
        (∀ v, pyGet d2 "endDate" = some v → ∃ n, v = JVal.num n) ∧
        dlookup d2 "localDate" = dlookup d "localDate" ∧
        dlookup d2 "localTime" = dlookup d "localTime" ∧
        dlookup d2 "localDateTime" = dlookup d "localDateTime" := by
    cases hc : dlookup d1 "endDate" with
    | none =>
      refine Or.inr ⟨d1, normDate_absent pIso d1 "endDate" hc, f1S, ?_,
        f1LD, f1LT, f1LDT⟩
      intro v hv
      simp [pyGet, hc] at hv
    | some v =>
      have hv1 : dlookup d "endDate" = some v := by
        rw [← f1E]
        exact hc
      obtain ⟨s2, rfl⟩ := hE v hv1
      cases hp : pIso (zrepl s2) with
      | none =>
        exact Or.inl ⟨_, parse_perr_end pIso pLoc ctx d d1 _ h1
          (normDate_fail pIso d1 "endDate" s2 hc hp)⟩
      | some n2 =>
        refine Or.inr ⟨dset d1 "endDate" (JVal.num n2),
          normDate_parsed pIso d1 "endDate" s2 n2 hc hp, ?_, ?_, ?_, ?_, ?_⟩
        · intro v hv
          rw [pyGet_congr _ d1 "startDate"
            (dlookup_dset_ne d1 _ _ _ (by decide))] at hv
          exact f1S v hv
        · intro v hv
          simp [pyGet, dlookup_dset_self] at hv
          exact ⟨n2, hv.symm⟩
        · rw [dlookup_dset_ne d1 _ _ _ (by decide)]
          exact f1LD
        · rw [dlookup_dset_ne d1 _ _ _ (by decide)]
          exact f1LT
        · rw [dlookup_dset_ne d1 _ _ _ (by decide)]
          exact f1LDT
  rcases stepE with done | ⟨d2, h2, f2S, f2E, f2LD, f2LT, f2LDT⟩
  · exact done
  have finishSame : normLocal pLoc d2 = NormStep.ok d2 →
      ∃ r, parse_bereal_data pIso pLoc ctx d = Except.ok r := by
    intro h3
    have fL : ∀ v, pyGet d2 "localDateTime" = some v → ∃ n, v = JVal.num n := by
      intro v hv
      obtain ⟨hlk, hnn⟩ := pyGet_eq_some d2 "localDateTime" v hv
      rw [f2LDT] at hlk
      rcases hL v hlk with ⟨n, rfl⟩ | rfl
      · exact ⟨n, rfl⟩
      · exact absurd rfl hnn
    obtain ⟨r, hr⟩ := parsePostTry_total ctx d2 f2S f2E fL
    exact ⟨r, (parse_steps pIso pLoc ctx d d1 d2 d2 h1 h2 h3).trans hr⟩
  cases hld : dlookup d2 "localDate" with
  | none => exact finishSame (normLocal_absent pLoc d2 (Or.inl hld))
  | some v1 =>
    cases hlt : dlookup d2 "localTime" with
    | none => exact finishSame (normLocal_absent pLoc d2 (Or.inr hlt))
    | some v2 =>
      cases hp : pLoc (toPyStr v1 ++ "T" ++ toPyStr v2 ++ ":00") with
      | none =>
        exact ⟨_, parse_perr_local pIso pLoc ctx d d1 d2 _ h1 h2
          (normLocal_fail pLoc d2 v1 v2 hld hlt hp)⟩
      | some n3 =>
        have h3 : normLocal pLoc d2 =
            NormStep.ok (dset d2 "localDateTime" (JVal.num n3)) :=
          normLocal_parsed pLoc d2 v1 v2 n3 hld hlt hp
        have g1 : ∀ v, pyGet (dset d2 "localDateTime" (JVal.num n3))
            "startDate" = some v → ∃ n, v = JVal.num n := by
          intro v hv
          rw [pyGet_congr _ d2 "startDate"
            (dlookup_dset_ne d2 _ _ _ (by decide))] at hv
          exact f2S v hv
        have g2 : ∀ v, pyGet (dset d2 "localDateTime" (JVal.num n3))
            "endDate" = some v → ∃ n, v = JVal.num n := by
          intro v hv
          rw [pyGet_congr _ d2 "endDate"
            (dlookup_dset_ne d2 _ _ _ (by decide))] at hv
          exact f2E v hv
        have g3 : ∀ v, pyGet (dset d2 "localDateTime" (JVal.num n3))
            "localDateTime" = some v → ∃ n, v = JVal.num n := by
          intro v hv
          simp [pyGet, dlookup_dset_self] at hv
          exact ⟨n3, hv.symm⟩
        obtain ⟨r, hr⟩ := parsePostTry_total ctx _ g1 g2 g3
        exact ⟨r, (parse_steps pIso pLoc ctx d d1 d2 _ h1 h2 h3).trans hr⟩

/-- C2 counterexample: the object payload whose startDate entry is the
JSON number 5 makes the cycle raise AttributeError at the .replace call of
line 122: the exception is not among those caught on line 102, so the
coroutine aborts with no reported state and no rearmed timer. -/
theorem claim2_counterexample :
    updateCycle pIsoAll pIsoAll ctxFlat
        (FetchResult.payload (JTop.jobj [("startDate", JVal.num 5)]))
        initSched =
      Except.error PyCrash.attributeError := by decide

/-- C2 (amended): for every fetch failure and every JSON object payload
whose startDate and endDate entries, when present, are strings, and whose
localDateTime entry, when present, is a number or null, one update cycle
completes without an unhandled exception: it produces a reportable outcome
and rearms the timer (non-object payloads, non-string date fields, and
non-numeric localDateTime entries can instead crash the cycle). -/
theorem claim2_cycle_total (pIso pLoc : String → Option Int) (ctx : TimeCtx)
    (st : SchedState) (fetch : FetchResult)
    (hsafe : ∀ d, fetch = FetchResult.payload (JTop.jobj d) →
      (∀ v, dlookup d "startDate" = some v → ∃ s1, v = JVal.str s1) ∧
      (∀ v, dlookup d "endDate" = some v → ∃ s2, v = JVal.str s2) ∧
      (∀ v, dlookup d "localDateTime" = some v →
        (∃ n, v = JVal.num n) ∨ v = JVal.null))
    (hobj : fetch ≠ FetchResult.payload JTop.jnonObj) :
    ∃ out st1, updateCycle pIso pLoc ctx fetch st = Except.ok (out, st1) ∧
      st1.unsub = some st.nextId := by
  cases fetch with
  | transportError m => exact ⟨_, _, rfl, rfl⟩
  | decodeError m => exact ⟨_, _, rfl, rfl⟩
  | payload top =>
    cases top with
    | jnonObj => exact absurd rfl hobj
    | jobj d =>
      obtain ⟨hS, hE, hL⟩ := hsafe d rfl
      obtain ⟨parsed, hparse⟩ := parse_total pIso pLoc ctx d hS hE hL
      have heq : updateCycle pIso pLoc ctx
          (FetchResult.payload (JTop.jobj d)) st =
          Except.ok
            ({ nativeValue := (pyGet parsed "instance").getD JVal.null,
               apiParsed := parsed, apiRaw := jsonDumps (JTop.jobj d),
               currentTimeUtc :=
                 (pyGet parsed "current_time_utc").getD JVal.null,
               scanIntervalSecs := nextIntervalSecs (pyGet parsed "instance"),
               nextDelaySecs := nextIntervalSecs (pyGet parsed "instance") },
             schedule_next_update st
               (nextIntervalSecs (pyGet parsed "instance"))) := by
        simp [updateCycle, async_update, hparse]
      exact ⟨_, _, heq, rfl⟩

theorem claim2_cycle_total_witness :
    (updateCycle pIsoAll pIsoAll ctxFlat
        (FetchResult.payload (JTop.jobj [("startDate", JVal.str "good")]))
        initSched).map (fun p => p.2.unsub) = Except.ok (some 0) ∧
    ∃ out st1, updateCycle pIsoAll pIsoAll ctxFlat
        (FetchResult.payload (JTop.jobj [("startDate", JVal.str "good")]))
        initSched =
      Except.ok (out, st1) ∧ st1.unsub = some initSched.nextId :=
  ⟨by decide,
  claim2_cycle_total pIsoAll pIsoAll ctxFlat initSched
    (FetchResult.payload (JTop.jobj [("startDate", JVal.str "good")]))
    (fun d hd => by
      cases hd
      refine ⟨?_, ?_, ?_⟩
      · intro v hv
        exact ⟨"good", by cases hv; rfl⟩
      · intro v hv
        cases hv
      · intro v hv
        cases hv)
    (by intro h; cases h)⟩
